import Mathlib

/-!
Verification of the event-coordination core of the tarvrs TUI music player
(`src/src/ui/mod.rs`): the selection list, the shared application state, the
request dispatch of `App::run`, and the playback-command emission of
`App::get_ui`. The Rust code is embedded shallowly: the stateful pieces become
pure state-passing functions, the event loop becomes a recursive function over
the finite prefix of messages delivered on the request channel, producing a
trace of observable events, and the two `unwrap` calls in the popup branch are
modelled by an `Option` result (`none` = panic).
-/

/-- A song record as used by `ui/mod.rs`: the core only reads `title`
(for the list rows) and `path` (forwarded in `PlayerRequests::Start`). -/
structure Song where
  title : String
  path : String
deriving Repr, DecidableEq

/-- The shared application state behind the `Arc<Mutex<_>>`: the fields read
and written by `ui/mod.rs` (`searching`, `search_term`, `curr_song`), as given
in the spec's data model. The lock discipline is sequentialised away: the
event-loop thread is the only mutator in this core. -/
structure AppState where
  searching : Bool
  search_term : String
  curr_song : Option Song
deriving Repr, DecidableEq

/-- The selection-list container (`StatefulList<T>` of
`widgets/stateful_list.rs`, which is not part of the sources here): `items`
plus the wrapped `ListState`'s selected index. -/
structure StatefulList (α : Type) where
  items : List α
  selected : Option Nat
deriving Repr, DecidableEq

namespace StatefulList

/-- Modelled from the spec: `withItems(items)` of the Selection List
(`widgets/stateful_list.rs` is missing from the sources) — "a list with the
given items and no selection". -/
def with_items {α : Type} (items : List α) : StatefulList α :=
  { items := items, selected := none }

/-- Modelled from the spec: `next()` of the Selection List
(`widgets/stateful_list.rs` is missing from the sources) — "if empty, no-op.
If no selection, select index 0. Otherwise advance the index by one, wrapping
to 0 past the last index." -/
def next {α : Type} (l : StatefulList α) : StatefulList α :=
  if l.items.isEmpty then l
  else
    match l.selected with
    | none => { l with selected := some 0 }
    | some i =>
        { l with selected := some (if i + 1 ≥ l.items.length then 0 else i + 1) }

/-- Modelled from the spec: `previous()` of the Selection List
(`widgets/stateful_list.rs` is missing from the sources) — "symmetric: if no
selection, select the last index. Otherwise decrement, wrapping to the last
index when going below 0", with the empty-list no-op symmetric to `next()`. -/
def previous {α : Type} (l : StatefulList α) : StatefulList α :=
  if l.items.isEmpty then l
  else
    match l.selected with
    | none => { l with selected := some (l.items.length - 1) }
    | some i =>
        { l with selected := some (if i = 0 then l.items.length - 1 else i - 1) }

end StatefulList

/-- The UI request messages consumed by `App::run`. The enum lives in
`utils/constants.rs` (not among the sources); the constructors are the ones
matched in `ui/mod.rs`, and `Other` stands for the remaining variants that
fall into the wildcard `_` arm. -/
inductive UIRequests where
  | Up : UIRequests
  | Down : UIRequests
  | Enter : UIRequests
  | ShowSearch : UIRequests
  | SearchInput : Char → UIRequests
  | GoBack : UIRequests
  | Quit : UIRequests
  | Other : UIRequests
deriving Repr, DecidableEq

/-- The playback commands produced by the render step: the two variants sent
by `ui/mod.rs` (`PlayerRequests::Start(path)` and `PlayerRequests::Stop`). -/
inductive PlayerRequests where
  | Start : String → PlayerRequests
  | Stop : PlayerRequests
deriving Repr, DecidableEq

/-- The `App` struct of `ui/mod.rs`: shared state handle, the song selection
list, and the local popup-visible flag `tmp_show_popup`. -/
structure App where
  state : AppState
  song_list : StatefulList Song
  tmp_show_popup : Bool
deriving Repr, DecidableEq

namespace App

/-- `App::with_songs`: builds the app around a given shared state with the
song catalog in the selection list and the popup hidden. -/
def with_songs (state : AppState) (songs : List Song) : App :=
  { state := state, song_list := StatefulList.with_items songs, tmp_show_popup := false }

/-- `App::on_up`: `self.song_list.previous()`. -/
def on_up (a : App) : App :=
  { a with song_list := a.song_list.previous }

/-- `App::on_down`: `self.song_list.next()`. -/
def on_down (a : App) : App :=
  { a with song_list := a.song_list.next }

/-- `App::on_enter`: `self.tmp_show_popup = !self.tmp_show_popup`. -/
def on_enter (a : App) : App :=
  { a with tmp_show_popup := !a.tmp_show_popup }

/-- `App::go_back`: if `state.searching` then set `searching = false` and
`search_term.clear()`; otherwise nothing. The three separate lock
acquisitions of the Rust code collapse to one sequential update. -/
def go_back (a : App) : App :=
  if a.state.searching then
    { a with state := { a.state with searching := false, search_term := "" } }
  else a

/-- One dispatch step of the `match request` in `App::run` (lines 114–125):
returns the updated app and whether the loop returns (`true` exactly for
`Quit`). `Other` is the wildcard arm: it only logs. -/
def handleRequest (a : App) : UIRequests → App × Bool
  | .Up => (a.on_up, false)
  | .Down => (a.on_down, false)
  | .Enter => (a.on_enter, false)
  | .ShowSearch => ({ a with state := { a.state with searching := true } }, false)
  | .SearchInput ch =>
      ({ a with state := { a.state with search_term := a.state.search_term.push ch } }, false)
  | .GoBack => (a.go_back, false)
  | .Quit => (a, true)
  | .Other => (a, false)

/-- Folds a sequence of requests through the dispatch (ignoring the quit
flag): the state after the event loop has processed the sequence. -/
def applyRequests (a : App) (rs : List UIRequests) : App :=
  rs.foldl (fun x r => (x.handleRequest r).1) a

/-- Models `player_tx.send(..)`: succeeds when the playback consumer still
holds its end of the channel, fails otherwise. `ui/mod.rs` discards this
result at both call sites. -/
def trySend (connected : Bool) (c : PlayerRequests) : Except Unit Unit :=
  if connected then .ok () else .error ()

/-- The observable part of `App::get_ui` (lines 198–217): the popup /
playback-emission logic. If `tmp_show_popup` is set, the code unwraps the
selected index and the selected song (`none` here = panic), sends
`Start(path)` and stores the song into `curr_song`; otherwise it sends
`Stop`. The result is the emitted command, the updated app, and the log
entries produced (this fragment never logs). The send result is computed and
discarded exactly as in the code. -/
def get_ui (a : App) (connected : Bool) : Option (PlayerRequests × App × List String) :=
  if a.tmp_show_popup then
    match a.song_list.selected with
    | none => none
    | some i =>
        match a.song_list.items.get? i with
        | none => none
        | some song =>
            let _sendRes := trySend connected (PlayerRequests.Start song.path)
            some (PlayerRequests.Start song.path,
              { a with state := { a.state with curr_song := some song } }, [])
  else
    let _sendRes := trySend connected PlayerRequests.Stop
    some (PlayerRequests.Stop, a, [])

/-- The startup statement of `App::run` (line 109):
`self.song_list.next(); // select first element`. -/
def startRun (a : App) : App :=
  { a with song_list := a.song_list.next }

end App

/-- Observable events of one run of the event loop: a completed render pass
with the command it emitted, a receive on the request channel that returned
`Ok` or `Err` (the `Err` arm is the logged receive failure), the `return` of
the loop, and a panic of the render step. -/
inductive LoopEv where
  | render : PlayerRequests → LoopEv
  | recvOk : UIRequests → LoopEv
  | recvErr : LoopEv
  | ret : LoopEv
  | panicEv : LoopEv
deriving Repr, DecidableEq

namespace App

/-- The loop of `App::run` (lines 111–133) over the finite prefix `msgs` of
results delivered by `rx.recv()` (`some r` = `Ok(r)`, `none` = `Err(_)`).
Each iteration draws one frame (which emits one playback command), then
blocks on one receive. When `msgs` is exhausted the loop is blocked in
`recv` forever, so the trace ends after the last render. Returns the trace
of events and the app state carried at the end. -/
def runLoop (a : App) (connected : Bool) : List (Option UIRequests) → List LoopEv × App
  | [] =>
    match a.get_ui connected with
    | none => ([LoopEv.panicEv], a)
    | some (c, a', _) => ([LoopEv.render c], a')
  | m :: rest =>
    match a.get_ui connected with
    | none => ([LoopEv.panicEv], a)
    | some (c, a', _) =>
        match m with
        | none =>
            let t := a'.runLoop connected rest
            (LoopEv.render c :: LoopEv.recvErr :: t.1, t.2)
        | some req =>
            let s := a'.handleRequest req
            if s.2 then ([LoopEv.render c, LoopEv.recvOk req, LoopEv.ret], s.1)
            else
              let t := s.1.runLoop connected rest
              (LoopEv.render c :: LoopEv.recvOk req :: t.1, t.2)

end App

/-! ### Selection-list validity -/

/-- The selection is present and in range. -/
def StatefulList.selGood {α : Type} (l : StatefulList α) : Prop :=
  ∃ i, l.selected = some i ∧ i < l.items.length

/-- The selection is absent or in range (the invariant of the spec's data
model for the Selection List). -/
def StatefulList.selOk {α : Type} (l : StatefulList α) : Prop :=
  l.selected = none ∨ l.selGood

/-- `next()` never changes the stored items. -/
theorem StatefulList.next_items {α : Type} (l : StatefulList α) :
    l.next.items = l.items := by
  unfold StatefulList.next
  split
  · rfl
  · split <;> rfl

/-- `previous()` never changes the stored items. -/
theorem StatefulList.previous_items {α : Type} (l : StatefulList α) :
    l.previous.items = l.items := by
  unfold StatefulList.previous
  split
  · rfl
  · split <;> rfl

/-- On a list with a valid selection, `next()` moves to the cyclic
successor index. -/
theorem StatefulList.next_of_valid {α : Type} (l : StatefulList α) (i : Nat)
    (hsel : l.selected = some i) (hi : i < l.items.length) :
    l.next = { l with selected := some ((i + 1) % l.items.length) } := by
  have hne : l.items.isEmpty = false := by
    cases hItems : l.items
    · rw [hItems] at hi; simp at hi
    · simp [hItems]
  unfold StatefulList.next
  rw [hne, hsel]
  simp only [Bool.false_eq_true, if_false]
  by_cases h : i + 1 ≥ l.items.length
  · have hlen : i + 1 = l.items.length := by omega
    simp [h, hlen.symm, Nat.mod_self]
  · simp [h, Nat.mod_eq_of_lt (by omega : i + 1 < l.items.length)]

/-- On a non-empty list with an in-range or absent selection, `next()`
yields a valid selection. -/
theorem StatefulList.next_selGood {α : Type} (l : StatefulList α)
    (hne : l.items ≠ []) (h : l.selOk) : l.next.selGood := by
  have hlen : 0 < l.items.length := List.length_pos.mpr hne
  have hemp : l.items.isEmpty = false := by
    cases hItems : l.items
    · exact absurd hItems hne
    · simp [hItems]
  rcases h with hnone | ⟨i, hsel, hi⟩
  · refine ⟨0, ?_, by rw [StatefulList.next_items]; exact hlen⟩
    unfold StatefulList.next
    rw [hemp, hnone]
    simp
  · rw [StatefulList.next_of_valid l i hsel hi]
    exact ⟨(i + 1) % l.items.length, rfl, Nat.mod_lt _ hlen⟩

/-- On a non-empty list with an in-range or absent selection, `previous()`
yields a valid selection. -/
theorem StatefulList.previous_selGood {α : Type} (l : StatefulList α)
    (hne : l.items ≠ []) (h : l.selOk) : l.previous.selGood := by
  have hlen : 0 < l.items.length := List.length_pos.mpr hne
  have hemp : l.items.isEmpty = false := by
    cases hItems : l.items
    · exact absurd hItems hne
    · simp [hItems]
  rcases h with hnone | ⟨i, hsel, hi⟩
  · refine ⟨l.items.length - 1, ?_, by rw [StatefulList.previous_items]; omega⟩
    unfold StatefulList.previous
    rw [hemp, hnone]
    simp
  · refine ⟨if i = 0 then l.items.length - 1 else i - 1, ?_, ?_⟩
    · unfold StatefulList.previous
      rw [hemp, hsel]
      simp
    · rw [StatefulList.previous_items]
      by_cases h0 : i = 0 <;> simp [h0] <;> omega

/-- A present valid selection implies a non-empty item list. -/
theorem StatefulList.selGood_ne_nil {α : Type} (l : StatefulList α)
    (h : l.selGood) : l.items ≠ [] := by
  obtain ⟨i, _, hi⟩ := h
  exact List.ne_nil_of_length_pos (by omega)

/-- Fold a sequence of navigation moves over the list
(`true` = `next()`, `false` = `previous()`). -/
def StatefulList.applyMoves {α : Type} (l : StatefulList α) (ms : List Bool) :
    StatefulList α :=
  ms.foldl (fun x m => if m then x.next else x.previous) l

/-- Navigation never changes the stored items. -/
theorem StatefulList.applyMoves_items {α : Type} (l : StatefulList α)
    (ms : List Bool) : (l.applyMoves ms).items = l.items := by
  induction ms generalizing l with
  | nil => rfl
  | cons m ms ih =>
    show ((if m then l.next else l.previous).applyMoves ms).items = l.items
    rw [ih]
    cases m <;> simp [StatefulList.next_items, StatefulList.previous_items]

/-- One navigation move from a good state yields a good state. -/
theorem StatefulList.move_selGood {α : Type} (l : StatefulList α) (m : Bool)
    (hne : l.items ≠ []) (h : l.selOk) :
    (if m then l.next else l.previous).selGood := by
  cases m
  · simpa using StatefulList.previous_selGood l hne h
  · simpa using StatefulList.next_selGood l hne h

/-- A present valid selection stays present and valid under any sequence of
moves. -/
theorem StatefulList.applyMoves_selGood {α : Type} (l : StatefulList α)
    (ms : List Bool) (h : l.selGood) : (l.applyMoves ms).selGood := by
  induction ms generalizing l with
  | nil => exact h
  | cons m ms ih =>
    show ((if m then l.next else l.previous).applyMoves ms).selGood
    exact ih _ (StatefulList.move_selGood l m (StatefulList.selGood_ne_nil l h)
      (Or.inr h))

/-- The selection invariant is preserved by any sequence of moves on a
non-empty list, and any non-empty sequence of moves establishes a present,
valid selection. -/
theorem StatefulList.applyMoves_selOk {α : Type} (l : StatefulList α)
    (ms : List Bool) (hne : l.items ≠ []) (h : l.selOk) :
    (l.applyMoves ms).selOk ∧ (ms ≠ [] → (l.applyMoves ms).selGood) := by
  cases ms with
  | nil => exact ⟨h, fun hc => absurd rfl hc⟩
  | cons m ms =>
    have hgood : ((if m then l.next else l.previous).applyMoves ms).selGood :=
      StatefulList.applyMoves_selGood _ ms (StatefulList.move_selGood l m hne h)
    exact ⟨Or.inr hgood, fun _ => hgood⟩


/-- On a list with a valid selection, `previous()` moves to the cyclic
predecessor index. -/
theorem StatefulList.previous_of_valid {α : Type} (l : StatefulList α) (i : Nat)
    (hsel : l.selected = some i) (hi : i < l.items.length) :
    l.previous =
      { l with selected := some (if i = 0 then l.items.length - 1 else i - 1) } := by
  have hemp : l.items.isEmpty = false := by
    cases hItems : l.items
    · rw [hItems] at hi; simp at hi
    · simp [hItems]
  unfold StatefulList.previous
  rw [hemp, hsel]
  simp

/-- Replacing the selection by its current value is the identity. -/
theorem StatefulList.eta_selected {α : Type} (l : StatefulList α) (i : Nat)
    (hsel : l.selected = some i) : { l with selected := some i } = l := by
  obtain ⟨items, sel⟩ := l
  simp at hsel
  subst hsel
  rfl

/-- Index arithmetic of `next` after `previous`. -/
theorem StatefulList.idx_np (len i : Nat) (hi : i < len) :
    ((if i = 0 then len - 1 else i - 1) + 1) % len = i := by
  by_cases h0 : i = 0
  · rw [if_pos h0]
    have h1 : len - 1 + 1 = len := by omega
    rw [h1, Nat.mod_self, h0]
  · rw [if_neg h0]
    have h1 : i - 1 + 1 = i := by omega
    rw [h1, Nat.mod_eq_of_lt hi]

/-- Index arithmetic of `previous` after `next`. -/
theorem StatefulList.idx_pn (len i : Nat) (hi : i < len) :
    (if (i + 1) % len = 0 then len - 1 else (i + 1) % len - 1) = i := by
  by_cases h : i + 1 ≥ len
  · have h1 : i + 1 = len := by omega
    rw [h1, Nat.mod_self, if_pos rfl]
    omega
  · rw [Nat.mod_eq_of_lt (by omega)]
    rw [if_neg (by omega)]
    omega

/-- On a list with a valid selection, iterating `next()` moves the selection
by the iteration count, modulo the list length. -/
theorem StatefulList.iterate_next_of_valid {α : Type} (l : StatefulList α)
    (i : Nat) (hsel : l.selected = some i) (hi : i < l.items.length)
    (k : Nat) :
    StatefulList.next^[k] l =
      { l with selected := some ((i + k) % l.items.length) } := by
  induction k with
  | zero =>
    obtain ⟨items, sel⟩ := l
    simp at hsel hi
    subst hsel
    simp [Nat.mod_eq_of_lt hi]
  | succ k ih =>
    have hlen : 0 < l.items.length := by omega
    rw [Function.iterate_succ_apply', ih]
    rw [StatefulList.next_of_valid { l with selected := some ((i + k) % l.items.length) }
      ((i + k) % l.items.length) rfl (Nat.mod_lt _ hlen)]
    show { l with selected := some (((i + k) % l.items.length + 1) % l.items.length) } =
      { l with selected := some ((i + (k + 1)) % l.items.length) }
    rw [Nat.mod_add_mod, Nat.add_assoc]

/-- On a list with a valid selection, `previous` undoes `next`. -/
theorem StatefulList.previous_next {α : Type} (l : StatefulList α) (i : Nat)
    (hsel : l.selected = some i) (hi : i < l.items.length) :
    l.next.previous = l := by
  have hlen : 0 < l.items.length := by omega
  rw [StatefulList.next_of_valid l i hsel hi]
  rw [StatefulList.previous_of_valid { l with selected := some ((i + 1) % l.items.length) }
    ((i + 1) % l.items.length) rfl (Nat.mod_lt _ hlen)]
  show { l with
      selected := some (if (i + 1) % l.items.length = 0
        then l.items.length - 1 else (i + 1) % l.items.length - 1) } = l
  rw [StatefulList.idx_pn _ _ hi]
  exact StatefulList.eta_selected l i hsel

/-- On a list with a valid selection, `next` undoes `previous`. -/
theorem StatefulList.next_previous {α : Type} (l : StatefulList α) (i : Nat)
    (hsel : l.selected = some i) (hi : i < l.items.length) :
    l.previous.next = l := by
  have hlen : 0 < l.items.length := by omega
  rw [StatefulList.previous_of_valid l i hsel hi]
  rw [StatefulList.next_of_valid
    { l with selected := some (if i = 0 then l.items.length - 1 else i - 1) }
    (if i = 0 then l.items.length - 1 else i - 1) rfl (by dsimp only; split <;> omega)]
  show { l with
      selected := some (((if i = 0 then l.items.length - 1 else i - 1) + 1)
        % l.items.length) } = l
  rw [StatefulList.idx_np _ _ hi]
  exact StatefulList.eta_selected l i hsel

/-! ### Sample data for concrete instantiations -/

/-- The first song of the spec's scenario catalog. -/
def songA : Song := { title := "A", path := "/a.mp3" }

/-- The second song of the spec's scenario catalog. -/
def songB : Song := { title := "B", path := "/b.mp3" }

/-- The initial shared state: not searching, empty search buffer, nothing
playing. -/
def state0 : AppState := { searching := false, search_term := "", curr_song := none }

/-- A concrete two-song selection list with the first row selected. -/
def sampleList : StatefulList Song := { items := [songA, songB], selected := some 0 }

/-! ### Claim theorems: selection list and dispatch -/

/-- Claim C9: for every non-empty Selection List satisfying the selection
invariant, every sequence of next/previous calls keeps the selected index
valid (absent-or-in-range, and present after at least one call); from any
present selected index, calling next() exactly items.length times returns to
the same list, and previous/next composed in either order are the
identity. -/
theorem C9_selection_cyclic {α : Type} (l : StatefulList α) :
    (l.items ≠ [] → l.selOk →
      ∀ ms : List Bool, (l.applyMoves ms).selOk ∧
        (ms ≠ [] → (l.applyMoves ms).selGood)) ∧
    (∀ i, l.selected = some i → i < l.items.length →
      StatefulList.next^[l.items.length] l = l ∧
      l.next.previous = l ∧ l.previous.next = l) := by
  constructor
  · intro hne h ms
    exact StatefulList.applyMoves_selOk l ms hne h
  · intro i hsel hi
    refine ⟨?_, StatefulList.previous_next l i hsel hi,
      StatefulList.next_previous l i hsel hi⟩
    rw [StatefulList.iterate_next_of_valid l i hsel hi l.items.length]
    rw [Nat.add_mod_right, Nat.mod_eq_of_lt hi]
    exact StatefulList.eta_selected l i hsel

/-- Witness for C9 at the concrete two-element list. -/
theorem C9_selection_cyclic_witness :
    (sampleList.applyMoves [true, false]).selOk ∧
    StatefulList.next^[sampleList.items.length] sampleList = sampleList ∧
    sampleList.next.previous = sampleList := by
  refine ⟨((C9_selection_cyclic sampleList).1 (by simp [sampleList])
    (Or.inr ⟨0, rfl, by simp [sampleList]⟩) [true, false]).1, ?_, ?_⟩
  · exact ((C9_selection_cyclic sampleList).2 0 rfl (by simp [sampleList])).1
  · exact ((C9_selection_cyclic sampleList).2 0 rfl (by simp [sampleList])).2.1

/-- Claim C8: processing Confirm (the `Enter` request) toggles the
popup-visible flag exactly once, leaves every other component unchanged, and
processing two consecutive Confirms restores the app exactly, from either
starting value of the flag. -/
theorem C8_confirm_involution (a : App) :
    (a.handleRequest UIRequests.Enter).1.tmp_show_popup = !a.tmp_show_popup ∧
    (a.handleRequest UIRequests.Enter).1.state = a.state ∧
    (a.handleRequest UIRequests.Enter).1.song_list = a.song_list ∧
    (a.handleRequest UIRequests.Enter).2 = false ∧
    ((a.handleRequest UIRequests.Enter).1.handleRequest UIRequests.Enter).1 = a := by
  refine ⟨rfl, rfl, rfl, rfl, ?_⟩
  show a.on_enter.on_enter = a
  unfold App.on_enter
  simp

/-- Applying a sequence of SearchInput requests appends exactly those
characters to the search buffer and changes nothing else. -/
theorem App.applyRequests_searchInput (a : App) (cs : List Char) :
    a.applyRequests (cs.map UIRequests.SearchInput) =
      { a with state := { a.state with
          search_term := ⟨a.state.search_term.data ++ cs⟩ } } := by
  induction cs generalizing a with
  | nil =>
    show a = _
    obtain ⟨⟨searching, ⟨data⟩, curr⟩, sl, pop⟩ := a
    simp
  | cons c cs ih =>
    show App.applyRequests { a with state :=
        { a.state with search_term := a.state.search_term.push c } }
      (cs.map UIRequests.SearchInput) = _
    rw [ih]
    simp [String.push, List.append_assoc]

/-- Claim C2: the dispatch of the event loop performs exactly the specified
action per request: Up runs previous(), Down runs next(), Enter toggles the
popup flag, ShowSearch sets searching, SearchInput appends the character (so
a sequence of keystrokes appends their concatenation in order), GoBack runs
the clear-search action, Quit sets the terminate flag without touching state,
and the unhandled variants leave everything unchanged and keep looping. -/
theorem C2_dispatch (a : App) :
    a.handleRequest UIRequests.Up = ({ a with song_list := a.song_list.previous }, false) ∧
    a.handleRequest UIRequests.Down = ({ a with song_list := a.song_list.next }, false) ∧
    a.handleRequest UIRequests.Enter = ({ a with tmp_show_popup := !a.tmp_show_popup }, false) ∧
    a.handleRequest UIRequests.ShowSearch =
      ({ a with state := { a.state with searching := true } }, false) ∧
    (∀ ch, a.handleRequest (UIRequests.SearchInput ch) =
      ({ a with state := { a.state with
          search_term := a.state.search_term.push ch } }, false)) ∧
    (∀ cs : List Char,
      (a.applyRequests (cs.map UIRequests.SearchInput)).state.search_term.data
        = a.state.search_term.data ++ cs) ∧
    a.handleRequest UIRequests.GoBack = (a.go_back, false) ∧
    a.handleRequest UIRequests.Quit = (a, true) ∧
    a.handleRequest UIRequests.Other = (a, false) := by
  refine ⟨rfl, rfl, rfl, rfl, fun ch => rfl, fun cs => ?_, rfl, rfl, rfl⟩
  rw [App.applyRequests_searchInput]

/-- Claim C5: GoBack while searching clears the search flag and the search
buffer jointly in the one dispatch step, leaving all other fields unchanged;
GoBack while not searching changes nothing. -/
theorem C5_go_back (a : App) :
    (a.state.searching = true →
      a.go_back = { a with state :=
        { a.state with searching := false, search_term := "" } }) ∧
    (a.state.searching = false → a.go_back = a) := by
  constructor
  · intro h
    unfold App.go_back
    rw [h]
    simp
  · intro h
    unfold App.go_back
    rw [h]
    simp

/-- A concrete app that is in search mode with a non-empty buffer. -/
def searchingApp : App :=
  { state := { searching := true, search_term := "hi", curr_song := none },
    song_list := sampleList, tmp_show_popup := false }

/-- Witness for C5: the two branches at concrete apps. -/
theorem C5_go_back_witness :
    searchingApp.go_back = { searchingApp with state :=
      { searchingApp.state with searching := false, search_term := "" } } ∧
    (App.with_songs state0 [songA]).go_back = App.with_songs state0 [songA] :=
  ⟨(C5_go_back searchingApp).1 rfl, (C5_go_back (App.with_songs state0 [songA])).2 rfl⟩

/-! ### Search invariant (C4) -/

/-- The spec's shared-state invariant: the search buffer is non-empty only
when search mode is on. -/
def searchInv (a : App) : Prop :=
  a.state.search_term = "" ∨ a.state.searching = true

/-- Counterexample to C4 as stated: starting from the initial shared state
(searching false, empty buffer), the one-request sequence
[SearchKeystroke a] reaches a state whose search buffer is non-empty while
searching is still false — the dispatch of SearchInput appends to the buffer
without looking at the searching flag. -/
theorem C4_counterexample :
    ((App.with_songs state0 [songA, songB]).applyRequests
        [UIRequests.SearchInput 'a']).state.search_term ≠ "" ∧
    ((App.with_songs state0 [songA, songB]).applyRequests
        [UIRequests.SearchInput 'a']).state.searching = false := by
  constructor
  · decide
  · rfl

/-- The guard under which the invariant survives: every SearchInput of the
sequence is dispatched while searching is on. -/
def App.guardedOk : App → List UIRequests → Bool
  | _, [] => true
  | a, r :: rs =>
      (match r with
       | UIRequests.SearchInput _ => a.state.searching
       | _ => true) && App.guardedOk (a.handleRequest r).1 rs

/-- One dispatch step preserves the search invariant, provided a SearchInput
only arrives while searching. -/
theorem searchInv_step (a : App) (r : UIRequests) (h : searchInv a)
    (hg : (match r with
           | UIRequests.SearchInput _ => a.state.searching
           | _ => true) = true) :
    searchInv (a.handleRequest r).1 := by
  cases r with
  | Up => exact h
  | Down => exact h
  | Enter => exact h
  | ShowSearch => exact Or.inr rfl
  | SearchInput c => exact Or.inr hg
  | GoBack =>
    show searchInv a.go_back
    unfold App.go_back
    split
    · exact Or.inl rfl
    · exact h
  | Quit => exact h
  | Other => exact h

/-- Claim C4 (amended): the invariant "search_term non-empty only when
searching" holds in every state reached from a state satisfying it by a
request sequence in which every SearchKeystroke is dispatched while searching
is true; it is preserved unconditionally by OpenSearch and Back, but a
SearchKeystroke dispatched while searching is false violates it (see the
counterexample). -/
theorem C4_search_invariant (a : App) (rs : List UIRequests)
    (h : searchInv a) (hg : App.guardedOk a rs = true) :
    searchInv (a.applyRequests rs) := by
  induction rs generalizing a with
  | nil => exact h
  | cons r rs ih =>
    unfold App.guardedOk at hg
    rw [Bool.and_eq_true] at hg
    exact ih _ (searchInv_step a r h hg.1) hg.2

/-- Witness for C4 (amended) on the spec's search scenario. -/
theorem C4_search_invariant_witness :
    searchInv ((App.with_songs state0 [songA]).applyRequests
      [UIRequests.ShowSearch, UIRequests.SearchInput 'h',
       UIRequests.SearchInput 'i', UIRequests.GoBack]) :=
  C4_search_invariant _ _ (Or.inl rfl) (by decide)

/-! ### Render emission (C1, C3) -/

/-- Claim C1: each completed render pass emits exactly one playback command,
determined only by the current state: with the popup flag set (and a selected
item present) it emits StartPlayback of the selected item's path and writes
that song into curr_song; with the flag clear it emits StopPlayback and
leaves the state untouched. No transition tracking is involved: the emission
is a function of the current pass alone. -/
theorem C1_render_emission (a : App) (conn : Bool) :
    (∀ i song, a.tmp_show_popup = true → a.song_list.selected = some i →
      a.song_list.items.get? i = some song →
      a.get_ui conn = some (PlayerRequests.Start song.path,
        { a with state := { a.state with curr_song := some song } }, [])) ∧
    (a.tmp_show_popup = false →
      a.get_ui conn = some (PlayerRequests.Stop, a, [])) := by
  constructor
  · intro i song hpop hsel hget
    rw [List.get?_eq_getElem?] at hget
    unfold App.get_ui
    rw [hpop, hsel]
    simp [hget]
  · intro hpop
    unfold App.get_ui
    rw [hpop]
    simp

/-- A concrete app with the popup open over the two-song list. -/
def popupApp : App :=
  { state := state0, song_list := sampleList, tmp_show_popup := true }

/-- Witness for C1: both branches at concrete apps. -/
theorem C1_render_emission_witness :
    popupApp.get_ui true = some (PlayerRequests.Start songA.path,
      { popupApp with state := { popupApp.state with curr_song := some songA } }, []) ∧
    (App.with_songs state0 [songA]).get_ui true =
      some (PlayerRequests.Stop, App.with_songs state0 [songA], []) :=
  ⟨(C1_render_emission popupApp true).1 0 songA rfl rfl rfl,
   (C1_render_emission (App.with_songs state0 [songA]) true).2 rfl⟩

/-- An app whose popup flag is set while the selection list has no selected
item. -/
def noSelApp : App :=
  { state := state0, song_list := { items := [songA], selected := none },
    tmp_show_popup := true }

/-- Counterexample to C3 as stated: with the popup flag set and no selected
item, the render step does not defensively emit StopPlayback — the unwrap of
the selected index fails (the `none` result models the panic), so no command
at all is emitted. -/
theorem C3_counterexample :
    noSelApp.tmp_show_popup = true ∧ noSelApp.song_list.selected = none ∧
    noSelApp.get_ui true = none ∧
    ∀ st l, noSelApp.get_ui true ≠ some (PlayerRequests.Stop, st, l) := by
  refine ⟨rfl, rfl, rfl, ?_⟩
  intro st l h
  rw [show noSelApp.get_ui true = none from rfl] at h
  exact Option.noConfusion h

/-- The selection of the app's song list is present and in range — the
invariant that protects the two unwraps of the popup branch. -/
def App.selValid (a : App) : Prop := a.song_list.selGood

/-- Every dispatch step preserves the selection invariant. -/
theorem App.handleRequest_selValid (a : App) (r : UIRequests)
    (h : a.selValid) : (a.handleRequest r).1.selValid := by
  cases r with
  | Up =>
    exact StatefulList.previous_selGood _ (StatefulList.selGood_ne_nil _ h) (Or.inr h)
  | Down =>
    exact StatefulList.next_selGood _ (StatefulList.selGood_ne_nil _ h) (Or.inr h)
  | Enter => exact h
  | ShowSearch => exact h
  | SearchInput c => exact h
  | GoBack =>
    show (a.go_back).selValid
    unfold App.go_back
    split
    · exact h
    · exact h
  | Quit => exact h
  | Other => exact h

/-- Any request sequence preserves the selection invariant. -/
theorem App.applyRequests_selValid (a : App) (rs : List UIRequests)
    (h : a.selValid) : (a.applyRequests rs).selValid := by
  induction rs generalizing a with
  | nil => exact h
  | cons r rs ih =>
    show (App.applyRequests (a.handleRequest r).1 rs).selValid
    exact ih _ (App.handleRequest_selValid a r h)

/-- The startup next() call establishes the selection invariant for a
non-empty catalog. -/
theorem App.startRun_selValid (st : AppState) (songs : List Song)
    (hne : songs ≠ []) : ((App.with_songs st songs).startRun).selValid :=
  StatefulList.next_selGood _ hne (Or.inl rfl)

/-- Under the selection invariant the render step never panics. -/
theorem App.get_ui_isSome (a : App) (conn : Bool) (h : a.selValid) :
    a.get_ui conn ≠ none := by
  obtain ⟨i, hsel, hi⟩ := h
  unfold App.get_ui
  by_cases hpop : a.tmp_show_popup
  · have hget : ∃ song, a.song_list.items.get? i = some song := by
      cases hg : a.song_list.items.get? i
      · rw [List.get?_eq_none] at hg
        omega
      · exact ⟨_, rfl⟩
    obtain ⟨song, hget⟩ := hget
    rw [List.get?_eq_getElem?] at hget
    rw [hsel]
    simp [hpop, hget]
  · simp [hpop]

/-- Claim C3 (amended): with the popup flag set and no selected item the
render step panics instead of emitting StopPlayback (see the counterexample);
what does hold is the second half of the claim: when the catalog is non-empty
and the startup next() call has executed, the selection stays present and
valid through any request sequence, so the unwraps of the popup branch never
fail and the render step never panics. -/
theorem C3_no_panic (st : AppState) (songs : List Song) (hne : songs ≠ [])
    (rs : List UIRequests) (conn : Bool) :
    (((App.with_songs st songs).startRun).applyRequests rs).selValid ∧
    (((App.with_songs st songs).startRun).applyRequests rs).get_ui conn ≠ none := by
  have h := App.applyRequests_selValid _ rs (App.startRun_selValid st songs hne)
  exact ⟨h, App.get_ui_isSome _ conn h⟩

/-- Witness for C3 (amended) at the two-song catalog. -/
theorem C3_no_panic_witness :
    (((App.with_songs state0 [songA, songB]).startRun).applyRequests
      [UIRequests.Enter, UIRequests.Down]).get_ui true ≠ none :=
  (C3_no_panic state0 [songA, songB] (by decide)
    [UIRequests.Enter, UIRequests.Down] true).2

/-! ### Event-loop lemmas (C6, C7, C10) -/

/-- The dispatch signals loop termination exactly for Quit. -/
theorem App.handleRequest_quit (a : App) (r : UIRequests) :
    (a.handleRequest r).2 = true ↔ r = UIRequests.Quit := by
  cases r <;> simp [App.handleRequest]

/-- The three possible outcomes of one render pass. -/
theorem App.get_ui_cases (a : App) (conn : Bool) :
    a.get_ui conn = none ∨
    (∃ song, a.get_ui conn = some (PlayerRequests.Start song.path,
      { a with state := { a.state with curr_song := some song } }, [])) ∨
    a.get_ui conn = some (PlayerRequests.Stop, a, []) := by
  by_cases hpop : a.tmp_show_popup = true
  · cases hsel : a.song_list.selected with
    | none =>
      left
      unfold App.get_ui
      rw [hpop, hsel]
      simp
    | some i =>
      cases hget : a.song_list.items[i]? with
      | none =>
        left
        unfold App.get_ui
        rw [hpop, hsel]
        simp [hget]
      | some song =>
        right; left
        refine ⟨song, ?_⟩
        unfold App.get_ui
        rw [hpop, hsel]
        simp [hget]
  · right; right
    rw [Bool.not_eq_true] at hpop
    unfold App.get_ui
    rw [hpop]
    simp

/-- A successful render pass keeps the song list and produces no log. -/
theorem App.get_ui_some (a : App) (conn : Bool) (c : PlayerRequests) (a' : App)
    (l : List String) (h : a.get_ui conn = some (c, a', l)) :
    a'.song_list = a.song_list ∧ l = [] := by
  rcases App.get_ui_cases a conn with hn | ⟨song, he⟩ | he
  · rw [hn] at h
    exact Option.noConfusion h
  · rw [he] at h
    simp only [Option.some.injEq, Prod.mk.injEq] at h
    obtain ⟨h1, h2, h3⟩ := h
    subst h2
    exact ⟨rfl, h3.symm⟩
  · rw [he] at h
    simp only [Option.some.injEq, Prod.mk.injEq] at h
    obtain ⟨h1, h2, h3⟩ := h
    subst h2
    exact ⟨rfl, h3.symm⟩

/-- A successful render pass preserves the selection invariant. -/
theorem App.get_ui_selValid (a : App) (conn : Bool) (c : PlayerRequests)
    (a' : App) (l : List String) (h : a.get_ui conn = some (c, a', l))
    (hv : a.selValid) : a'.selValid := by
  show a'.song_list.selGood
  rw [(App.get_ui_some a conn c a' l h).1]
  exact hv

/-- Without a Quit among the delivered messages the loop never returns. -/
theorem App.runLoop_no_ret (conn : Bool) (msgs : List (Option UIRequests)) :
    ∀ a : App, (some UIRequests.Quit) ∉ msgs →
      LoopEv.ret ∉ (a.runLoop conn msgs).1 := by
  induction msgs with
  | nil =>
    intro a hq
    rcases hg : a.get_ui conn with _ | ⟨c, a', l⟩
    · simp [App.runLoop, hg]
    · simp [App.runLoop, hg]
  | cons m rest ih =>
    intro a hq
    have hm : m ≠ some UIRequests.Quit := fun hc => hq (hc ▸ List.mem_cons_self m rest)
    have hq2 : some UIRequests.Quit ∉ rest := fun hc => hq (List.mem_cons_of_mem m hc)
    rcases hg : a.get_ui conn with _ | ⟨c, a', l⟩
    · simp [App.runLoop, hg]
    · cases m with
      | none =>
        simp only [App.runLoop, hg, List.mem_cons]
        intro hmem
        rcases hmem with h1 | h1 | h1
        · exact LoopEv.noConfusion h1
        · exact LoopEv.noConfusion h1
        · exact ih a' hq2 h1
      | some req =>
        have hreq : req ≠ UIRequests.Quit := fun hc => hm (by rw [hc])
        have hfalse : (a'.handleRequest req).2 = false := by
          cases hb : (a'.handleRequest req).2
          · rfl
          · exact absurd ((App.handleRequest_quit a' req).mp hb) hreq
        simp only [App.runLoop, hg, hfalse, Bool.false_eq_true, if_false, List.mem_cons]
        intro hmem
        rcases hmem with h1 | h1 | h1
        · exact LoopEv.noConfusion h1
        · exact LoopEv.noConfusion h1
        · exact ih _ hq2 h1

/-- One iteration renders exactly one frame, then completes exactly one
receive, in that order, provided the render pass does not panic. -/
theorem App.runLoop_step_shape (conn : Bool) (a : App) (hv : a.selValid)
    (m : Option UIRequests) (rest : List (Option UIRequests)) :
    ∃ c tl, (a.runLoop conn (m :: rest)).1 =
      LoopEv.render c ::
        (match m with
         | some r => LoopEv.recvOk r
         | none => LoopEv.recvErr) :: tl := by
  rcases hg : a.get_ui conn with _ | ⟨c, a', l⟩
  · exact absurd hg (App.get_ui_isSome a conn hv)
  · cases m with
    | none =>
      exact ⟨c, (a'.runLoop conn rest).1, by simp [App.runLoop, hg]⟩
    | some req =>
      cases hb : (a'.handleRequest req).2
      · exact ⟨c, ((a'.handleRequest req).1.runLoop conn rest).1,
          by simp [App.runLoop, hg, hb]⟩
      · exact ⟨c, [LoopEv.ret], by simp [App.runLoop, hg, hb]⟩

/-- After the first Quit the loop result is independent of everything sent
later, and the trace ends with a single final return event. -/
theorem App.runLoop_quit (conn : Bool) (pre : List (Option UIRequests)) :
    ∀ a : App, a.selValid → (some UIRequests.Quit) ∉ pre →
    ∀ rest rest' : List (Option UIRequests),
      a.runLoop conn (pre ++ some UIRequests.Quit :: rest) =
        a.runLoop conn (pre ++ some UIRequests.Quit :: rest') ∧
      ∃ tr, (a.runLoop conn (pre ++ some UIRequests.Quit :: rest)).1 =
          tr ++ [LoopEv.ret] ∧ LoopEv.ret ∉ tr := by
  induction pre with
  | nil =>
    intro a hv hq rest rest'
    rcases hg : a.get_ui conn with _ | ⟨c, a', l⟩
    · exact absurd hg (App.get_ui_isSome a conn hv)
    · constructor
      · simp [App.runLoop, hg, App.handleRequest]
      · refine ⟨[LoopEv.render c, LoopEv.recvOk UIRequests.Quit], ?_, by simp⟩
        simp [App.runLoop, hg, App.handleRequest]
  | cons m pre ih =>
    intro a hv hq rest rest'
    have hm : m ≠ some UIRequests.Quit := fun hc => hq (hc ▸ List.mem_cons_self m pre)
    have hq2 : some UIRequests.Quit ∉ pre := fun hc => hq (List.mem_cons_of_mem m hc)
    rcases hg : a.get_ui conn with _ | ⟨c, a', l⟩
    · exact absurd hg (App.get_ui_isSome a conn hv)
    · have hv' : a'.selValid := App.get_ui_selValid a conn c a' l hg hv
      cases m with
      | none =>
        have h1 := ih a' hv' hq2 rest rest'
        obtain ⟨tr, htr, hmem⟩ := h1.2
        have hunf : ∀ rs, a.runLoop conn (none :: rs) =
            (LoopEv.render c :: LoopEv.recvErr :: (a'.runLoop conn rs).1,
             (a'.runLoop conn rs).2) := by
          intro rs
          simp [App.runLoop, hg]
        constructor
        · show a.runLoop conn (none :: (pre ++ some UIRequests.Quit :: rest)) =
            a.runLoop conn (none :: (pre ++ some UIRequests.Quit :: rest'))
          rw [hunf, hunf, h1.1]
        · refine ⟨LoopEv.render c :: LoopEv.recvErr :: tr, ?_, ?_⟩
          · show (a.runLoop conn
                (none :: (pre ++ some UIRequests.Quit :: rest))).1 = _
            rw [hunf, htr]
            rfl
          · intro hin
            rcases List.mem_cons.mp hin with h2 | h2
            · exact LoopEv.noConfusion h2
            · rcases List.mem_cons.mp h2 with h3 | h3
              · exact LoopEv.noConfusion h3
              · exact hmem h3
      | some req =>
        have hreq : req ≠ UIRequests.Quit := fun hc => hm (by rw [hc])
        have hfalse : (a'.handleRequest req).2 = false := by
          cases hb : (a'.handleRequest req).2
          · rfl
          · exact absurd ((App.handleRequest_quit a' req).mp hb) hreq
        have hv'' : (a'.handleRequest req).1.selValid :=
          App.handleRequest_selValid a' req hv'
        have h1 := ih (a'.handleRequest req).1 hv'' hq2 rest rest'
        obtain ⟨tr, htr, hmem⟩ := h1.2
        have hunf : ∀ rs, a.runLoop conn (some req :: rs) =
            (LoopEv.render c :: LoopEv.recvOk req ::
              ((a'.handleRequest req).1.runLoop conn rs).1,
             ((a'.handleRequest req).1.runLoop conn rs).2) := by
          intro rs
          simp [App.runLoop, hg, hfalse]
        constructor
        · show a.runLoop conn (some req :: (pre ++ some UIRequests.Quit :: rest)) =
            a.runLoop conn (some req :: (pre ++ some UIRequests.Quit :: rest'))
          rw [hunf, hunf, h1.1]
        · refine ⟨LoopEv.render c :: LoopEv.recvOk req :: tr, ?_, ?_⟩
          · show (a.runLoop conn
                (some req :: (pre ++ some UIRequests.Quit :: rest))).1 = _
            rw [hunf, htr]
            rfl
          · intro hin
            rcases List.mem_cons.mp hin with h2 | h2
            · exact LoopEv.noConfusion h2
            · rcases List.mem_cons.mp h2 with h3 | h3
              · exact LoopEv.noConfusion h3
              · exact hmem h3

/-- The render pass does not depend on whether the playback consumer still
holds its channel end: the send result is discarded. -/
theorem App.get_ui_conn (a : App) (c₁ c₂ : Bool) : a.get_ui c₁ = a.get_ui c₂ := by
  unfold App.get_ui
  rfl

/-- The whole loop does not depend on whether the playback consumer still
holds its channel end. -/
theorem App.runLoop_conn (c₁ c₂ : Bool) (msgs : List (Option UIRequests)) :
    ∀ a : App, a.runLoop c₁ msgs = a.runLoop c₂ msgs := by
  induction msgs with
  | nil =>
    intro a
    simp only [App.runLoop]
    rw [App.get_ui_conn a c₁ c₂]
  | cons m rest ih =>
    intro a
    have hgeq := App.get_ui_conn a c₁ c₂
    rcases hg : a.get_ui c₂ with _ | ⟨c, a', l⟩
    · rw [hg] at hgeq
      simp [App.runLoop, hgeq, hg]
    · rw [hg] at hgeq
      cases m with
      | none =>
        simp [App.runLoop, hgeq, hg, ih a']
      | some req =>
        cases hb : (a'.handleRequest req).2
        · simp [App.runLoop, hgeq, hg, hb, ih ((a'.handleRequest req).1)]
        · simp [App.runLoop, hgeq, hg, hb]

/-! ### Claim theorems: the loop -/

/-- Claim C6: a failure of the blocking receive (producer disconnected) is
recorded (the recvErr trace event) and the loop continues with the state the
render pass produced — the dispatch does not run, so no request-driven
mutation happens on that iteration and the loop does not terminate; the only
request that makes the loop return is Quit. -/
theorem C6_recv_failure (conn : Bool) :
    (∀ (a a' : App) (c : PlayerRequests) (l : List String)
        (rest : List (Option UIRequests)),
      a.get_ui conn = some (c, a', l) →
      a.runLoop conn (none :: rest) =
        (LoopEv.render c :: LoopEv.recvErr :: (a'.runLoop conn rest).1,
         (a'.runLoop conn rest).2)) ∧
    (∀ (a : App) (msgs : List (Option UIRequests)),
      (some UIRequests.Quit) ∉ msgs → LoopEv.ret ∉ (a.runLoop conn msgs).1) := by
  constructor
  · intro a a' c l rest h
    simp [App.runLoop, h]
  · intro a msgs hq
    exact App.runLoop_no_ret conn msgs a hq

/-- Witness for C6 at the concrete popup app. -/
theorem C6_recv_failure_witness :
    (popupApp.runLoop true [none] =
      (LoopEv.render (PlayerRequests.Start songA.path) :: LoopEv.recvErr ::
        (({ popupApp with state := { popupApp.state with
              curr_song := some songA } }).runLoop true []).1,
       (({ popupApp with state := { popupApp.state with
              curr_song := some songA } }).runLoop true []).2)) ∧
    LoopEv.ret ∉ (popupApp.runLoop true [some UIRequests.Down, none]).1 :=
  ⟨(C6_recv_failure true).1 popupApp
      { popupApp with state := { popupApp.state with curr_song := some songA } }
      (PlayerRequests.Start songA.path) [] [] rfl,
   (C6_recv_failure true).2 popupApp [some UIRequests.Down, none] (by decide)⟩

/-- Claim C7: provided the selection invariant holds (no panic), every
iteration of the loop renders exactly one frame and then completes exactly
one receive, in that order; once a Quit is received the loop's whole
behaviour is independent of anything sent later (no further renders or
channel operations), and the trace ends with a single final return event. -/
theorem C7_loop_protocol (conn : Bool) :
    (∀ a : App, a.selValid →
      ∀ (m : Option UIRequests) (rest : List (Option UIRequests)),
      ∃ c tl, (a.runLoop conn (m :: rest)).1 =
        LoopEv.render c ::
          (match m with
           | some r => LoopEv.recvOk r
           | none => LoopEv.recvErr) :: tl) ∧
    (∀ (a : App) (pre rest rest' : List (Option UIRequests)), a.selValid →
      (some UIRequests.Quit) ∉ pre →
      a.runLoop conn (pre ++ some UIRequests.Quit :: rest) =
        a.runLoop conn (pre ++ some UIRequests.Quit :: rest') ∧
      ∃ tr, (a.runLoop conn (pre ++ some UIRequests.Quit :: rest)).1 =
          tr ++ [LoopEv.ret] ∧ LoopEv.ret ∉ tr) := by
  constructor
  · intro a hv m rest
    exact App.runLoop_step_shape conn a hv m rest
  · intro a pre rest rest' hv hq
    exact App.runLoop_quit conn pre a hv hq rest rest'

/-- Witness for C7 at the concrete popup app. -/
theorem C7_loop_protocol_witness :
    (∃ c tl, (popupApp.runLoop true [some UIRequests.Enter]).1 =
      LoopEv.render c :: LoopEv.recvOk UIRequests.Enter :: tl) ∧
    popupApp.runLoop true [some UIRequests.Down, some UIRequests.Quit] =
      popupApp.runLoop true [some UIRequests.Down, some UIRequests.Quit, none] :=
  ⟨(C7_loop_protocol true).1 popupApp ⟨0, rfl, by decide⟩ (some UIRequests.Enter) [],
   ((C7_loop_protocol true).2 popupApp [some UIRequests.Down] [] [none]
      ⟨0, rfl, by decide⟩ (by decide)).1⟩

/-- Claim C10: a failed send on the playback command channel is silently
ignored: the render step's result (emitted command, state mutation, log) and
the whole loop's behaviour are identical whether the consumer end is
connected or not, no log entry is produced by the emission, and the loop
does not terminate because of it. -/
theorem C10_send_ignored :
    (∀ (a : App) (c₁ c₂ : Bool), a.get_ui c₁ = a.get_ui c₂) ∧
    (∀ (a : App) (conn : Bool) (r : PlayerRequests × App × List String),
      a.get_ui conn = some r → r.2.2 = ([] : List String)) ∧
    (∀ (a : App) (c₁ c₂ : Bool) (msgs : List (Option UIRequests)),
      a.runLoop c₁ msgs = a.runLoop c₂ msgs) := by
  refine ⟨App.get_ui_conn, ?_, ?_⟩
  · intro a conn r h
    exact (App.get_ui_some a conn r.1 r.2.1 r.2.2 h).2
  · intro a c₁ c₂ msgs
    exact App.runLoop_conn c₁ c₂ msgs a

/-- Witness for C10 at concrete inputs. -/
theorem C10_send_ignored_witness :
    popupApp.get_ui false = popupApp.get_ui true ∧
    ((PlayerRequests.Start songA.path,
      { popupApp with state := { popupApp.state with curr_song := some songA } },
      ([] : List String)) : PlayerRequests × App × List String).2.2
        = ([] : List String) ∧
    (App.with_songs state0 [songA]).runLoop false [some UIRequests.Down] =
      (App.with_songs state0 [songA]).runLoop true [some UIRequests.Down] :=
  ⟨C10_send_ignored.1 popupApp false true,
   C10_send_ignored.2.1 popupApp true
     (PlayerRequests.Start songA.path,
      { popupApp with state := { popupApp.state with curr_song := some songA } },
      ([] : List String)) rfl,
   C10_send_ignored.2.2 (App.with_songs state0 [songA]) false true
     [some UIRequests.Down]⟩
